import Mathlib

/-!
Shallow embedding of the Atom feed serializer (`src/atom.ts` of
`trailimage/feed`), together with theorems about its behaviour.

The serializer is a pure string-building program except for one spot:
`writeGenerator` assigns `g.generator = g.name` on its argument.  Mutation is
made explicit here by having `writeGenerator` (and hence `write`) return the
post-state of the mutated value next to the produced string.

JavaScript objects are compared with `==` (reference equality for objects,
`null == undefined` for missing values) in `writeEntry`; to embed that, the
person-valued fields carry an explicit reference identifier (`ref`), distinct
objects having distinct identifiers, so that identity and value equality can
be told apart.
-/

namespace Atom

/-- Modelled from the spec: the JavaScript `Date` runtime value (absent from
`src/`, the repository only declares timestamp-typed fields).  A date is its
calendar components; `toISOString` renders the ISO-8601 form used by the
serializer. -/
structure JsDate where
  year : Nat
  month : Nat
  day : Nat
  hour : Nat
  minute : Nat
  second : Nat
  millis : Nat
deriving DecidableEq

/-- Decimal digits, most significant first; the fuel always suffices because
a number has at most `n + 1` digits. -/
def natCharsAux : Nat → Nat → List Char
  | 0, _ => []
  | fuel + 1, n =>
      if n < 10 then [Nat.digitChar n]
      else natCharsAux fuel (n / 10) ++ [Nat.digitChar (n % 10)]

/-- Decimal digits of a natural number, most significant first. -/
def natChars (n : Nat) : List Char := natCharsAux (n + 1) n

/-- Left-pad the decimal form of `n` with zeros to `width` characters. -/
def padNat (width n : Nat) : String :=
  let ds := natChars n
  ⟨List.replicate (width - ds.length) '0' ++ ds⟩

/-- Modelled from the spec: `Date.prototype.toISOString` of the JavaScript
runtime, "timestamp-typed values render as an ISO-8601 string". -/
def JsDate.toISOString (d : JsDate) : String :=
  padNat 4 d.year ++ "-" ++ padNat 2 d.month ++ "-" ++ padNat 2 d.day ++ "T" ++
  padNat 2 d.hour ++ ":" ++ padNat 2 d.minute ++ ":" ++ padNat 2 d.second ++
  "." ++ padNat 3 d.millis ++ "Z"

/-- Modelled from the spec: `Person` of `src/types.ts` (declarations absent
from `src/`): "name (required), uri (optional), email (optional)". -/
structure Person where
  name : String
  uri : Option String
  email : Option String
deriving DecidableEq

/-- Modelled from the spec: `Generator` of `src/types.ts`: "name, optional
uri, optional version".  The extra `generator` field is the property that
`writeGenerator` assigns (`g.generator = g.name`) and then reads back through
`writeEntityTag('generator', g)`; before serialization it is normally
unset (`none`). -/
structure Generator where
  name : String
  uri : Option String
  version : Option String
  generator : Option String
deriving DecidableEq

/-- Modelled from the spec: `TextType` of `src/types.ts`, "one of
{plain, html, xhtml}".  The test suite fixes the serialized token of the
plain case to `"text"` and of the HTML case to `"html"`. -/
inductive TextType where
  | plain
  | html
  | xhtml
deriving DecidableEq

/-- The string token a `TextType` serializes to in the `type` attribute. -/
def TextType.token : TextType → String
  | .plain => "text"
  | .html => "html"
  | .xhtml => "xhtml"

/-- A field value as read off an entity by `writeEntityTag`: absent
(`undefined`/`null`), a string, or a `Date`. -/
inductive FieldValue where
  | missing
  | str (s : String)
  | date (d : JsDate)
deriving DecidableEq

/-- Modelled from the spec: a `Text`-shaped field, "either a bare string
(implicit type = plain) or a structured pair (value, type)". -/
inductive TextField where
  | missing
  | plain (s : String)
  | structured (value : String) (ttype : TextType)
deriving DecidableEq

/-- A `Person | Person[] | null/undefined` field.  `ref` is the object
identity of the person object (resp. of the array object): two occurrences
denote the same JavaScript reference exactly when their `ref`s agree. -/
inductive PersonsField where
  | nullv
  | one (ref : Nat) (p : Person)
  | many (ref : Nat) (ps : List Person)
deriving DecidableEq

/-- JavaScript `==` on two person-field values as used by `writeEntry`
(`feedAuthor == entry.author`): `null == undefined` is true, two objects are
`==` exactly when they are the same reference, an object is never `==` to
`null`. -/
def jsEq : PersonsField → PersonsField → Bool
  | .nullv, .nullv => true
  | .one r _, .one s _ => r == s
  | .many r _, .many s _ => r == s
  | _, _ => false

/-- Modelled from the spec: `Link` of `src/types.ts`: "href (required),
rel (optional relation token), type (optional media-type token)". -/
structure Link where
  href : String
  rel : Option String
  type : Option String
deriving DecidableEq

/-- One element of the `string | Link` union accepted by `writeLink`. -/
inductive LinkItem where
  | str (s : String)
  | link (l : Link)
deriving DecidableEq

/-- The full `string | Link | (string | Link)[]` argument of `writeLink`. -/
inductive LinkArg where
  | item (i : LinkItem)
  | arr (ls : List LinkItem)
deriving DecidableEq

/-- `Attributes` (`Map<string, string>`): an insertion-ordered key/value
sequence. -/
def Attributes := List (String × String)

/-- Modelled from the spec: `Entry` of `src/types.ts` (§3 of the spec plus
the `link` field exercised by the test suite).  `id`, `updated`, `published`
are read by `writeEntityTag`; `title`, `rights`, `content`, `summary` by
`writeTextTag`; `link` is never read by the serializer. -/
structure Entry where
  id : FieldValue
  title : TextField
  updated : FieldValue
  published : FieldValue
  author : PersonsField
  contributor : PersonsField
  rights : TextField
  content : TextField
  summary : TextField
  link : Option LinkArg
deriving DecidableEq

/-- Modelled from the spec: `Feed` of `src/types.ts`: "id, title, subtitle,
rights (entity-typed fields), author, generator (optional), ordered sequence
of Entry". -/
structure Feed where
  id : FieldValue
  title : FieldValue
  subtitle : FieldValue
  rights : FieldValue
  author : PersonsField
  generator : Option Generator
  entry : List Entry
deriving DecidableEq

/-- Modelled from the spec: the `htmlEscape` helper of the external
`@toba/tools` package, replacing the markup-unsafe characters `&`, `<`, `>`
and the quote characters with their entity forms — one replacement per
character of the input, i.e. a single escape pass. -/
def escapeChar (c : Char) : List Char :=
  if c = '&' then "&amp;".data
  else if c = '<' then "&lt;".data
  else if c = '>' then "&gt;".data
  else if c = Char.ofNat 34 then "&quot;".data
  else if c = Char.ofNat 39 then "&#39;".data
  else [c]

/-- Escape every character of a character list once. -/
def escapeList : List Char → List Char
  | [] => []
  | c :: rest => escapeChar c ++ escapeList rest

/-- Modelled from the spec: `htmlEscape` of `@toba/tools`. -/
def htmlEscape (s : String) : String := ⟨escapeList s.data⟩

/-- `writeAttributes` (`src/atom.ts:52`): fold the attribute map, in
insertion order, into leading-space `key="value"` pairs; an absent map
yields the empty string. -/
def writeAttributes : Option Attributes → String
  | some attr =>
      attr.foldl (fun pairs kv => pairs ++ " " ++ kv.1 ++ "=\"" ++ kv.2 ++ "\"") ""
  | none => ""

/-- `writeTag` (`src/atom.ts:40`): empty or absent content suppresses the
element entirely (attributes included); otherwise the element is rendered
with its content escaped by `htmlEscape`. -/
def writeTag (name : String) (value : Option String) (attr : Option Attributes) : String :=
  match value with
  | none => ""
  | some s =>
      if s = "" then ""
      else "<" ++ name ++ writeAttributes attr ++ ">" ++ htmlEscape s ++ "</" ++ name ++ ">"

/-- The string a present field value is converted to by `writeEntityTag`:
dates via `toISOString`, other present values via stringification, absent
values stay the empty string. -/
def fieldText : FieldValue → String
  | .missing => ""
  | .str s => s
  | .date d => d.toISOString

/-- `writeEntityTag` (`src/atom.ts:20`): read the named field off the
entity, convert it to text and delegate to `writeTag`. -/
def writeEntityTag (name : String) (content : FieldValue) (attr : Option Attributes) : String :=
  writeTag name (some (fieldText content)) attr

/-- Lift an optional string field (for example `Person.uri`) to the
`FieldValue` read by `writeEntityTag`. -/
def fieldOfOpt : Option String → FieldValue
  | none => .missing
  | some s => .str s

/-- `writeGenerator` (`src/atom.ts:67`).  When a generator is present the
source assigns `g.generator = g.name`, computes
`writeEntityTag('generator', g)` — and discards it, returning `''` on every
path.  The first component is the post-state of the argument, the second the
returned string. -/
def writeGenerator : Option Generator → Option Generator × String
  | some g =>
      let g2 : Generator := ⟨g.name, g.uri, g.version, some g.name⟩
      let _discarded := writeEntityTag "generator" (fieldOfOpt g2.generator) none
      (some g2, "")
  | none => (none, "")

/-- `writeTextTag` (`src/atom.ts:92`): a bare string gets type `plain`
(token `"text"`), a structured value carries its own type; the resolved
value and a `type` attribute are delegated to `writeTag`.  An absent field
delegates the empty value together with an empty attribute map. -/
def writeTextTag (name : String) (content : TextField) : String :=
  match content with
  | .missing => writeTag name (some "") (some [])
  | .plain s => writeTag name (some s) (some [("type", TextType.plain.token)])
  | .structured v t => writeTag name (some v) (some [("type", t.token)])

/-- The scalar branch of `writePerson` (`src/atom.ts:187`): one person
record wrapped in the role tag, fields rendered by `writeEntityTag`. -/
def writePersonOne (tag : String) (p : Person) : String :=
  "<" ++ tag ++ ">" ++
  writeEntityTag "name" (FieldValue.str p.name) none ++
  writeEntityTag "uri" (fieldOfOpt p.uri) none ++
  writeEntityTag "email" (fieldOfOpt p.email) none ++
  "</" ++ tag ++ ">"

/-- `writePerson` (`src/atom.ts:181`): an array is reduced by rendering each
person and concatenating; a single person renders wrapped in the role tag;
no person yields the empty string. -/
def writePerson (tag : String) : PersonsField → String
  | .nullv => ""
  | .one _ p => writePersonOne tag p
  | .many _ ps => ps.foldl (fun list p => list ++ writePersonOne tag p) ""

/-- `writeEntry` (`src/atom.ts:138`): the `<entry>` wrapper around the fixed
field sequence; the entry-level author is suppressed when `feedAuthor ==
entry.author` (JavaScript loose equality, i.e. object identity). -/
def writeEntry (entry : Entry) (feedAuthor : PersonsField) : String :=
  "<entry>" ++
  writeEntityTag "id" entry.id none ++
  writeTextTag "title" entry.title ++
  writeEntityTag "updated" entry.updated none ++
  writeEntityTag "published" entry.published none ++
  (if jsEq feedAuthor entry.author then "" else writePerson "author" entry.author) ++
  writePerson "contributor" entry.contributor ++
  writeTextTag "rights" entry.rights ++
  writeTextTag "content" entry.content ++
  writeTextTag "summary" entry.summary ++
  "</entry>"

/-- Concatenation of a list of strings (`Array.prototype.join('')`). -/
def joinAll : List String → String
  | [] => ""
  | s :: rest => s ++ joinAll rest

/-- `write` (`src/atom.ts:126`): the Atom document for a feed.  The first
component is the post-state of the feed (its generator mutated by
`writeGenerator`), the second the produced XML string. -/
def write (feed : Feed) : Feed × String :=
  let gen := writeGenerator feed.generator
  (⟨feed.id, feed.title, feed.subtitle, feed.rights, feed.author, gen.1, feed.entry⟩,
    "<?xml version=\"1.0\" encoding=\"utf-8\"?>" ++
    "<feed xmlns=\"http://www.w3.org/2005/Atom\">" ++
    writeEntityTag "id" feed.id none ++
    writeEntityTag "title" feed.title none ++
    writeEntityTag "subtitle" feed.subtitle none ++
    writeEntityTag "rights" feed.rights none ++
    writePerson "author" feed.author ++
    gen.2 ++
    joinAll (feed.entry.map (fun e => writeEntry e feed.author)) ++
    "</feed>")

/-- The leading-space attribute fragment for one key of a link descriptor:
rendered whenever the value is present (`is.value`), absent keys contribute
nothing. -/
def linkAttr (key : String) : Option String → String
  | some v => " " ++ key ++ "=\"" ++ v ++ "\""
  | none => ""

/-- The object branch of `writeLink` (`src/atom.ts:162`): one self-closing
`<link/>` whose attributes are the present keys in sorted order
(`href`, `rel`, `type`). -/
def writeLinkObj (l : Link) : String :=
  "<link" ++ linkAttr "href" (some l.href) ++ linkAttr "rel" l.rel ++
  linkAttr "type" l.type ++ "/>"

/-- One `string | Link` element: a bare string recurses as
`{href: s, rel: LinkRelation.Alternate}`. -/
def writeLinkSingle : LinkItem → String
  | .str s => writeLinkObj ⟨s, some "alternate", none⟩
  | .link l => writeLinkObj l

/-- `writeLink` (`src/atom.ts:157`): an array reduces to the concatenation
of its elements in order. -/
def writeLink : LinkArg → String
  | .item i => writeLinkSingle i
  | .arr ls => ls.foldl (fun list l => list ++ writeLinkSingle l) ""

/-- `ISyndicate` (`src/types.ts`, modelled from the spec): a capability
producing a `Feed`-shaped model. -/
structure ISyndicate where
  rssJSON : Feed

/-- `render` (`src/atom.ts:118`): serialize the model exported by an
`ISyndicate` source. -/
def render (source : ISyndicate) : Feed × String :=
  write source.rssJSON

/-!  Scanning helpers used to state and prove output-shape invariants. -/

/-- Does the character list contain a `<` immediately followed by an `l`? -/
def hasPairLtL : List Char → Bool
  | a :: b :: rest => (a == '<' && b == 'l') || hasPairLtL (b :: rest)
  | _ => false

/-- Is the last character of the list a `<`? -/
def lastIsLt : List Char → Bool
  | [] => false
  | [a] => a == '<'
  | _ :: b :: rest => lastIsLt (b :: rest)

/-- Does the list contain no `<` at all? -/
def noLt : List Char → Bool
  | [] => true
  | c :: rest => c != '<' && noLt rest

/-- Does `p` occur as a contiguous substring of the second list? -/
def hasSub (p : List Char) : List Char → Bool
  | [] => p.isEmpty
  | c :: rest => p.isPrefixOf (c :: rest) || hasSub p rest

/-- A character list is `Good` when it has no `<l` pair and does not end in
`<`; `Good` lists stay `Good` under concatenation. -/
def Good (l : List Char) : Prop := hasPairLtL l = false ∧ lastIsLt l = false

instance (l : List Char) : Decidable (Good l) :=
  inferInstanceAs (Decidable (hasPairLtL l = false ∧ lastIsLt l = false))

end Atom

namespace Atom

/-! ### General helper lemmas -/

/-- Two strings with the same character data are equal. -/
theorem str_ext {s t : String} (h : s.data = t.data) : s = t := by
  cases s; cases t; exact congrArg String.mk h

/-- Collapse a three-piece closed suffix of a string concatenation. -/
theorem append_suffix3 (y a b c d : String) (h : a ++ b ++ c = d) :
    y ++ a ++ b ++ c = y ++ d := by
  rw [← h]; simp [String.append_assoc]

/-- The reduce-and-concatenate pattern of the source equals mapping and
joining. -/
theorem foldl_append_eq_joinAll {α : Type} (f : α → String) (l : List α) (acc : String) :
    l.foldl (fun list x => list ++ f x) acc = acc ++ joinAll (l.map f) := by
  induction l generalizing acc with
  | nil => simp [joinAll]
  | cons x xs ih => simp [joinAll, ih, String.append_assoc]

/-- The positive case of `writeTag`: non-empty content renders the element
with attributes and escaped content. -/
theorem writeTag_pos (name s : String) (attr : Option Attributes) (hs : s ≠ "") :
    writeTag name (some s) attr =
      "<" ++ name ++ writeAttributes attr ++ ">" ++ htmlEscape s ++ "</" ++ name ++ ">" := by
  simp [writeTag, hs]

/-! ### Claim theorems -/

/-- C1: `write` produces exactly the fixed XML prologue, the Atom `feed`
root element containing — in fixed order — the id, title, subtitle and
rights entity tags, the feed-level author from `writePerson`, the generator
output of `writeGenerator`, every entry's `writeEntry` output concatenated
in entry order, and the closing `</feed>`. -/
theorem write_output_structure (feed : Feed) :
    (write feed).2 =
      "<?xml version=\"1.0\" encoding=\"utf-8\"?>" ++
      "<feed xmlns=\"http://www.w3.org/2005/Atom\">" ++
      writeEntityTag "id" feed.id none ++
      writeEntityTag "title" feed.title none ++
      writeEntityTag "subtitle" feed.subtitle none ++
      writeEntityTag "rights" feed.rights none ++
      writePerson "author" feed.author ++
      (writeGenerator feed.generator).2 ++
      joinAll (feed.entry.map (fun e => writeEntry e feed.author)) ++
      "</feed>" := rfl

/-- C2 (code bug): `writeGenerator` returns the empty string on every input
— the rendered generator element is computed and discarded, never returned;
on the documentation's own example generator the function returns `""` and
only mutates the record's `generator` property. -/
theorem writeGenerator_discards_rendering :
    (∀ g : Option Generator, (writeGenerator g).2 = "") ∧
    writeGenerator
        (some ⟨"Example Toolkit", some "http://www.example.com/", some "1.0", none⟩) =
      (some ⟨"Example Toolkit", some "http://www.example.com/", some "1.0",
        some "Example Toolkit"⟩, "") := by
  refine ⟨fun g => ?_, rfl⟩
  cases g <;> rfl

/-- C3 (counterexample): serialization does not leave the model unchanged —
on a feed carrying a generator, `write` returns a post-state different from
its input, because `writeGenerator` assigns the generator's `generator`
property. -/
theorem write_mutates_model :
    (write ⟨FieldValue.str "id", FieldValue.str "t", FieldValue.str "", FieldValue.str "",
        PersonsField.nullv, some ⟨"gen", none, none, none⟩, []⟩).1 ≠
      ⟨FieldValue.str "id", FieldValue.str "t", FieldValue.str "", FieldValue.str "",
        PersonsField.nullv, some ⟨"gen", none, none, none⟩, []⟩ := by
  decide

/-- C3 (amended): the serializer only reads the model except for one write:
`writeGenerator` sets the generator's `generator` field to its name; no
other field of the feed is modified by `write`. -/
theorem write_mutation_frame (f : Feed) :
    (write f).1 =
      ⟨f.id, f.title, f.subtitle, f.rights, f.author, (writeGenerator f.generator).1, f.entry⟩ ∧
    (writeGenerator f.generator).1 =
      f.generator.map (fun g => ⟨g.name, g.uri, g.version, some g.name⟩) := by
  refine ⟨rfl, ?_⟩
  cases f.generator <;> rfl

/-- C5: in `writeEntry` the author element is suppressed exactly when the
suppression comparison `jsEq` (JavaScript `==`, i.e. object identity)
relates the feed author and the entry author; identity of two person
references is reference equality regardless of their values, so a
distinct-but-equal-valued author is still rendered. -/
theorem writeEntry_author_identity (e : Entry) (fa : PersonsField) :
    writeEntry e fa =
      "<entry>" ++
      writeEntityTag "id" e.id none ++
      writeTextTag "title" e.title ++
      writeEntityTag "updated" e.updated none ++
      writeEntityTag "published" e.published none ++
      (if jsEq fa e.author then "" else writePerson "author" e.author) ++
      writePerson "contributor" e.contributor ++
      writeTextTag "rights" e.rights ++
      writeTextTag "content" e.content ++
      writeTextTag "summary" e.summary ++
      "</entry>" ∧
    (∀ r s : Nat, ∀ p q : Person,
      jsEq (PersonsField.one r p) (PersonsField.one s q) = decide (r = s)) ∧
    (∀ r s : Nat, ∀ p : Person, r ≠ s →
      (if jsEq (PersonsField.one r p) (PersonsField.one s p) then ""
       else writePerson "author" (PersonsField.one s p)) =
        writePerson "author" (PersonsField.one s p)) := by
  refine ⟨rfl, fun r s p q => ?_, fun r s p hrs => ?_⟩
  · by_cases h : r = s <;> simp [jsEq, h]
  · have h : (r == s) = false := by simpa using hrs
    simp [jsEq, h]

/-- C5 witness: two value-equal persons under distinct references do not
trigger the suppression — the entry-level author element is rendered. -/
theorem writeEntry_author_identity_witness :
    (if jsEq (PersonsField.one 0 ⟨"Bob", none, none⟩) (PersonsField.one 1 ⟨"Bob", none, none⟩)
     then "" else writePerson "author" (PersonsField.one 1 ⟨"Bob", none, none⟩)) =
      writePerson "author" (PersonsField.one 1 ⟨"Bob", none, none⟩) :=
  (writeEntry_author_identity
    ⟨FieldValue.missing, TextField.missing, FieldValue.missing, FieldValue.missing,
      PersonsField.nullv, PersonsField.nullv, TextField.missing, TextField.missing,
      TextField.missing, none⟩ PersonsField.nullv).2.2 0 1 ⟨"Bob", none, none⟩ (by decide)

/-- C7: `writeTag` suppresses the element (attributes included) on empty or
absent content, and otherwise renders the element around the content
escaped exactly once, replacing the markup characters with entity forms, as
on the example `writeTag "t" "<p>&x</p>"`. -/
theorem writeTag_escapes_once (n s : String) (a : Option Attributes) (hs : s ≠ "") :
    writeTag n none a = "" ∧
    writeTag n (some "") a = "" ∧
    writeTag n (some s) a =
      "<" ++ n ++ writeAttributes a ++ ">" ++ htmlEscape s ++ "</" ++ n ++ ">" ∧
    writeTag "t" (some "<p>&x</p>") none = "<t>&lt;p&gt;&amp;x&lt;/p&gt;</t>" := by
  refine ⟨rfl, rfl, writeTag_pos n s a hs, by decide⟩

/-- C7 witness: the positive branch of `writeTag` at a concrete input. -/
theorem writeTag_escapes_once_witness :
    writeTag "u" (some "v") none = "<u>v</u>" := by
  have h := (writeTag_escapes_once "u" "v" none (by decide)).2.2.1
  rw [h]; decide

/-- C9: `writePerson` renders no input as the empty string, one person as a
single role-wrapped record, and a sequence as the concatenation — in input
order, with no separator and no shared wrapper — of the independently
rendered role elements, each containing the entity-tag output for name, uri
and email. -/
theorem writePerson_concatenation (tag : String) (r : Nat) (ps : List Person) (p : Person) :
    writePerson tag PersonsField.nullv = "" ∧
    writePerson tag (PersonsField.one r p) =
      "<" ++ tag ++ ">" ++
      writeEntityTag "name" (FieldValue.str p.name) none ++
      writeEntityTag "uri" (fieldOfOpt p.uri) none ++
      writeEntityTag "email" (fieldOfOpt p.email) none ++
      "</" ++ tag ++ ">" ∧
    writePerson tag (PersonsField.many r ps) = joinAll (ps.map (writePersonOne tag)) := by
  refine ⟨rfl, rfl, ?_⟩
  show ps.foldl (fun list q => list ++ writePersonOne tag q) "" = _
  rw [foldl_append_eq_joinAll]
  exact String.empty_append _


/-- C4 (counterexample): the output of `write` can contain an empty tag —
for a feed whose author has an empty name, the serialized document contains
the empty role wrapper `<author></author>`. -/
theorem write_emits_empty_wrapper :
    (write ⟨FieldValue.str "", FieldValue.str "", FieldValue.str "", FieldValue.str "",
        PersonsField.one 0 ⟨"", none, none⟩, none, []⟩).2 =
      "<?xml version=\"1.0\" encoding=\"utf-8\"?><feed xmlns=\"http://www.w3.org/2005/Atom\"><author></author></feed>" ∧
    hasSub "<author></author>".data
      ((write ⟨FieldValue.str "", FieldValue.str "", FieldValue.str "", FieldValue.str "",
        PersonsField.one 0 ⟨"", none, none⟩, none, []⟩).2).data = true := by
  decide

/-- C4 (amended): elements rendered through `writeTag` are suppressed
exactly when their content is empty or absent, but the wrappers are not:
`writePerson` emits a role wrapper for every present person record even
when all its fields render empty, and `writeEntry` emits the `<entry>`
wrapper unconditionally. -/
theorem empty_suppression_scope (n tag : String) (a : Option Attributes)
    (e : Entry) (fa : PersonsField) :
    writeTag n none a = "" ∧
    writeTag n (some "") a = "" ∧
    writePersonOne tag ⟨"", none, none⟩ = "<" ++ tag ++ ">" ++ "</" ++ tag ++ ">" ∧
    (∃ body : String, writeEntry e fa = "<entry>" ++ body ++ "</entry>") := by
  refine ⟨rfl, rfl, ?_, ?_⟩
  · simp [writePersonOne, writeEntityTag, fieldOfOpt, fieldText, writeTag]
  · refine ⟨writeEntityTag "id" e.id none ++ writeTextTag "title" e.title ++
      writeEntityTag "updated" e.updated none ++ writeEntityTag "published" e.published none ++
      (if jsEq fa e.author then "" else writePerson "author" e.author) ++
      writePerson "contributor" e.contributor ++ writeTextTag "rights" e.rights ++
      writeTextTag "content" e.content ++ writeTextTag "summary" e.summary, ?_⟩
    simp [writeEntry, String.append_assoc]

/-- C6 (counterexample): the feed title is not resolved as a Text field —
`write` renders a bare-string feed title without any `type` attribute, so
the claimed text-resolver treatment (which always yields a `type` when
resolvable) does not happen for the feed. -/
theorem feed_title_no_type_attribute :
    (write ⟨FieldValue.str "f-id", FieldValue.str "title", FieldValue.str "", FieldValue.str "",
        PersonsField.nullv, none, []⟩).2 =
      "<?xml version=\"1.0\" encoding=\"utf-8\"?><feed xmlns=\"http://www.w3.org/2005/Atom\"><id>f-id</id><title>title</title></feed>" ∧
    hasSub "<title type=".data
      ((write ⟨FieldValue.str "f-id", FieldValue.str "title", FieldValue.str "", FieldValue.str "",
        PersonsField.nullv, none, []⟩).2).data = false := by
  decide

/-- C6 (amended): only the entry title is resolved as a Text field by
`writeTextTag` (bare string gets type `text`, a structured value its own
type token); the feed title in `write` is rendered by `writeEntityTag`,
which attaches no `type` attribute. -/
theorem title_resolution_amended (s v : String) (t : TextType)
    (hs : s ≠ "") (hv : v ≠ "") :
    writeTextTag "title" (TextField.plain s) =
      "<title type=\"text\">" ++ htmlEscape s ++ "</title>" ∧
    writeTextTag "title" (TextField.structured v t) =
      "<title type=\"" ++ t.token ++ "\">" ++ htmlEscape v ++ "</title>" ∧
    (∀ f : Feed, (write f).2 =
      "<?xml version=\"1.0\" encoding=\"utf-8\"?>" ++
      "<feed xmlns=\"http://www.w3.org/2005/Atom\">" ++
      writeEntityTag "id" f.id none ++
      writeEntityTag "title" f.title none ++
      writeEntityTag "subtitle" f.subtitle none ++
      writeEntityTag "rights" f.rights none ++
      writePerson "author" f.author ++
      (writeGenerator f.generator).2 ++
      joinAll (f.entry.map (fun e => writeEntry e f.author)) ++
      "</feed>") ∧
    (∀ (e : Entry) (fa : PersonsField), writeEntry e fa =
      "<entry>" ++
      writeEntityTag "id" e.id none ++
      writeTextTag "title" e.title ++
      writeEntityTag "updated" e.updated none ++
      writeEntityTag "published" e.published none ++
      (if jsEq fa e.author then "" else writePerson "author" e.author) ++
      writePerson "contributor" e.contributor ++
      writeTextTag "rights" e.rights ++
      writeTextTag "content" e.content ++
      writeTextTag "summary" e.summary ++
      "</entry>") := by
  refine ⟨?_, ?_, fun f => rfl, fun e fa => rfl⟩
  · have h0 : writeTextTag "title" (TextField.plain s) =
        writeTag "title" (some s) (some [("type", TextType.plain.token)]) := rfl
    rw [h0, writeTag_pos _ _ _ hs]
    have hP : "<" ++ "title" ++ writeAttributes (some [("type", TextType.plain.token)]) ++ ">" =
        "<title type=\"text\">" := by decide
    rw [hP]
    exact append_suffix3 _ _ _ _ _ (by decide)
  · have h0 : writeTextTag "title" (TextField.structured v t) =
        writeTag "title" (some v) (some [("type", t.token)]) := rfl
    rw [h0, writeTag_pos _ _ _ hv]
    have hP : "<" ++ "title" ++ writeAttributes (some [("type", t.token)]) ++ ">" =
        "<title type=\"" ++ t.token ++ "\">" := by cases t <;> decide
    rw [hP]
    exact append_suffix3 _ _ _ _ _ (by decide)

/-- C6 witness: the amended resolution at concrete inputs. -/
theorem title_resolution_amended_witness :
    writeTextTag "title" (TextField.plain "title") = "<title type=\"text\">title</title>" := by
  have h := (title_resolution_amended "title" "x" TextType.html (by decide) (by decide)).1
  rw [h]; decide

/-- C8 (counterexample): a link attribute is rendered whenever its key is
present, even when the value is the empty string — a descriptor with
`rel = ""` renders ` rel=""`, which the claim ("emitted only when its value
is non-empty") forbids. -/
theorem writeLink_empty_value_attribute :
    writeLink (LinkArg.item (LinkItem.link ⟨"http://x", some "", none⟩)) =
      "<link href=\"http://x\" rel=\"\"/>" ∧
    hasSub " rel=\"\"".data
      (writeLink (LinkArg.item (LinkItem.link ⟨"http://x", some "", none⟩))).data = true ∧
    writeLink (LinkArg.item (LinkItem.link ⟨"http://x", some "", none⟩)) ≠
      "<link href=\"http://x\"/>" := by
  decide

/-- C8 (amended): each link descriptor renders as one self-closing element
whose attributes are the present keys in the lexicographic key order
`href`, `rel`, `type` — a key is emitted exactly when present, whatever its
value, and `href` is always present; a bare string defaults `rel` to
`alternate`; a sequence concatenates the renderings in input order. -/
theorem writeLink_attribute_presence (l : Link) (s : String) (ls : List LinkItem) :
    writeLink (LinkArg.item (LinkItem.link l)) =
      "<link" ++ linkAttr "href" (some l.href) ++ linkAttr "rel" l.rel ++
        linkAttr "type" l.type ++ "/>" ∧
    writeLink (LinkArg.item (LinkItem.str s)) =
      writeLink (LinkArg.item (LinkItem.link ⟨s, some "alternate", none⟩)) ∧
    writeLink (LinkArg.arr ls) = joinAll (ls.map writeLinkSingle) ∧
    (∀ key : String, linkAttr key none = "") ∧
    (∀ key v : String, linkAttr key (some v) = " " ++ key ++ "=\"" ++ v ++ "\"") := by
  refine ⟨rfl, rfl, ?_, fun key => rfl, fun key v => rfl⟩
  show ls.foldl (fun list i => list ++ writeLinkSingle i) "" = _
  rw [foldl_append_eq_joinAll]
  exact String.empty_append _


/-! ### Scanning lemmas: the serialized feed never contains `<l` -/

/-- Dropping a non-`<` head does not change the `<l` scan. -/
theorem hasPairLtL_cons (c : Char) (t : List Char) (hc : c ≠ '<') :
    hasPairLtL (c :: t) = hasPairLtL t := by
  cases t with
  | nil => rfl
  | cons d rest =>
      have h : (c == '<') = false := beq_eq_false_iff_ne.mpr hc
      simp [hasPairLtL, h]

/-- Dropping a `<` head is safe when the next character is not `l`. -/
theorem hasPairLtL_lt_cons (t : List Char) (h : t.head? ≠ some 'l') :
    hasPairLtL ('<' :: t) = hasPairLtL t := by
  cases t with
  | nil => rfl
  | cons d rest =>
      have hd : d ≠ 'l' := by simpa using h
      have hb : (d == 'l') = false := beq_eq_false_iff_ne.mpr hd
      simp [hasPairLtL, hb]

/-- The last character of a list with at least two elements is the last of
its tail. -/
theorem lastIsLt_cons (c : Char) (t : List Char) (ht : t ≠ []) :
    lastIsLt (c :: t) = lastIsLt t := by
  cases t with
  | nil => exact absurd rfl ht
  | cons d rest => rfl

/-- Splitting the head off a `noLt` list. -/
theorem noLt_head (c : Char) (t : List Char) (h : noLt (c :: t) = true) :
    c ≠ '<' ∧ noLt t = true := by
  simp [noLt] at h
  exact ⟨h.1, h.2⟩

/-- A `<`-free prefix never contributes to the `<l` scan. -/
theorem hasPairLtL_noLt_append (a t : List Char) (ha : noLt a = true) :
    hasPairLtL (a ++ t) = hasPairLtL t := by
  induction a with
  | nil => rfl
  | cons c a' ih =>
      obtain ⟨hc, ha'⟩ := noLt_head c a' ha
      rw [List.cons_append, hasPairLtL_cons c (a' ++ t) hc, ih ha']

/-- A list without `<` is `Good`. -/
theorem noLt_good (l : List Char) (h : noLt l = true) : Good l := by
  induction l with
  | nil => exact ⟨rfl, rfl⟩
  | cons c rest ih =>
      obtain ⟨hc, hr⟩ := noLt_head c rest h
      obtain ⟨h1, h2⟩ := ih hr
      refine ⟨by rw [hasPairLtL_cons c rest hc]; exact h1, ?_⟩
      cases rest with
      | nil => simpa [lastIsLt] using beq_eq_false_iff_ne.mpr hc
      | cons d r2 => rw [lastIsLt_cons c _ (by simp)]; exact h2

/-- `Good` lists are closed under concatenation. -/
theorem good_append {a b : List Char} (ha : Good a) (hb : Good b) : Good (a ++ b) := by
  induction a with
  | nil => simpa using hb
  | cons c a' ih =>
      cases a' with
      | nil =>
          have hc : c ≠ '<' := by
            have h2 := ha.2
            simp [lastIsLt] at h2
            exact h2
          refine ⟨by rw [List.singleton_append, hasPairLtL_cons c b hc]; exact hb.1, ?_⟩
          cases b with
          | nil => simpa [lastIsLt] using beq_eq_false_iff_ne.mpr hc
          | cons d r => rw [List.singleton_append, lastIsLt_cons c _ (by simp)]; exact hb.2
      | cons d a'' =>
          have hun : hasPairLtL (c :: d :: a'') =
              ((c == '<' && d == 'l') || hasPairLtL (d :: a'')) := rfl
          have hsplit := ha.1
          rw [hun, Bool.or_eq_false_iff] at hsplit
          have htail : Good (d :: a'') := ⟨hsplit.2, ha.2⟩
          have hres := ih htail
          refine ⟨?_, ?_⟩
          · show ((c == '<' && d == 'l') || hasPairLtL (d :: (a'' ++ b))) = false
            rw [Bool.or_eq_false_iff]
            exact ⟨hsplit.1, hres.1⟩
          · show lastIsLt (d :: (a'' ++ b)) = false
            exact hres.2

/-- `Good` transfers along string concatenation. -/
theorem good_sappend {s t : String} (hs : Good s.data) (ht : Good t.data) :
    Good (s ++ t).data := by
  rw [String.data_append]
  exact good_append hs ht

/-- A concatenation of `Good` strings is `Good`. -/
theorem good_joinAll (l : List String) (h : ∀ s ∈ l, Good s.data) :
    Good (joinAll l).data := by
  induction l with
  | nil => exact ⟨rfl, rfl⟩
  | cons s rest ih =>
      show Good ((s ++ joinAll rest) : String).data
      exact good_sappend (h s (by simp)) (ih (fun t ht => h t (by simp [ht])))

/-- Each escaped character expands to a `<`-free chunk. -/
theorem noLt_escapeChar (c : Char) : noLt (escapeChar c) = true := by
  unfold escapeChar
  split_ifs with h1 h2 h3 h4 h5
  · decide
  · decide
  · decide
  · decide
  · decide
  · simp [noLt]
    exact h2

/-- `noLt` distributes over append. -/
theorem noLt_append_chunks (a b : List Char) : noLt (a ++ b) = (noLt a && noLt b) := by
  induction a with
  | nil => simp [noLt]
  | cons c a' ih => simp [noLt, ih, Bool.and_assoc]

/-- Escaped text contains no `<` at all. -/
theorem noLt_escapeList (l : List Char) : noLt (escapeList l) = true := by
  induction l with
  | nil => rfl
  | cons c rest ih =>
      rw [show escapeList (c :: rest) = escapeChar c ++ escapeList rest from rfl,
        noLt_append_chunks, noLt_escapeChar, ih]
      rfl

/-- `htmlEscape` output contains no `<`. -/
theorem noLt_htmlEscape (s : String) : noLt (htmlEscape s).data = true :=
  noLt_escapeList s.data

/-- An opening fragment `<name` is `Good` when the tag name is non-empty,
`<`-free and does not start with `l`. -/
theorem good_lt_append (name : String) (h1 : noLt name.data = true)
    (h2 : name.data.head? ≠ some 'l') (h3 : name ≠ "") :
    Good ("<" ++ name).data := by
  rw [String.data_append]
  cases hnd : name.data with
  | nil => exact absurd (str_ext hnd) h3
  | cons c cs =>
      rw [hnd] at h1 h2
      obtain ⟨hc, hcs⟩ := noLt_head c cs h1
      have hcl : c ≠ 'l' := by simpa using h2
      obtain ⟨g1, g2⟩ := noLt_good (c :: cs) h1
      refine ⟨?_, ?_⟩
      · show hasPairLtL ('<' :: c :: cs) = false
        rw [hasPairLtL_lt_cons (c :: cs) (by simpa using hcl)]
        exact g1
      · show lastIsLt ('<' :: c :: cs) = false
        rw [lastIsLt_cons _ _ (by simp)]
        exact g2

/-- A closing fragment `</name` is `Good` when the tag name is non-empty
and `<`-free. -/
theorem good_ltslash_append (name : String) (h1 : noLt name.data = true)
    (h3 : name ≠ "") :
    Good ("</" ++ name).data := by
  rw [String.data_append]
  cases hnd : name.data with
  | nil => exact absurd (str_ext hnd) h3
  | cons c cs =>
      obtain ⟨g1, g2⟩ := noLt_good (c :: cs) (hnd ▸ h1)
      refine ⟨?_, ?_⟩
      · show hasPairLtL ('<' :: '/' :: c :: cs) = false
        rw [hasPairLtL_lt_cons ('/' :: c :: cs) (by simp),
          hasPairLtL_cons '/' (c :: cs) (by decide)]
        exact g1
      · show lastIsLt ('<' :: '/' :: c :: cs) = false
        rw [lastIsLt_cons _ _ (by simp), lastIsLt_cons _ _ (by simp)]
        exact g2


/-- `writeTag` output is `Good` for a well-formed tag name and a `<`-free
attribute fragment. -/
theorem good_writeTag (name : String) (v : Option String) (attr : Option Attributes)
    (h1 : noLt name.data = true) (h2 : name.data.head? ≠ some 'l') (h3 : name ≠ "")
    (h4 : noLt (writeAttributes attr).data = true) :
    Good (writeTag name v attr).data := by
  cases v with
  | none => exact ⟨rfl, rfl⟩
  | some s =>
      by_cases hs : s = ""
      · subst hs
        exact ⟨rfl, rfl⟩
      · rw [writeTag_pos name s attr hs]
        have hassoc :
            "<" ++ name ++ writeAttributes attr ++ ">" ++ htmlEscape s ++ "</" ++ name ++ ">" =
              ("<" ++ name) ++ (writeAttributes attr ++ (">" ++
                (htmlEscape s ++ (("</" ++ name) ++ ">")))) := by
          simp [String.append_assoc]
        rw [hassoc]
        refine good_sappend (good_lt_append name h1 h2 h3) ?_
        refine good_sappend (noLt_good _ h4) ?_
        refine good_sappend (by decide) ?_
        refine good_sappend (noLt_good _ (noLt_htmlEscape s)) ?_
        exact good_sappend (good_ltslash_append name h1 h3) (by decide)

/-- `writeEntityTag` output is `Good` under the same conditions. -/
theorem good_writeEntityTag (name : String) (content : FieldValue)
    (h1 : noLt name.data = true) (h2 : name.data.head? ≠ some 'l') (h3 : name ≠ "") :
    Good (writeEntityTag name content none).data :=
  good_writeTag name (some (fieldText content)) none h1 h2 h3 (by decide)

/-- `writeTextTag` output is `Good`: its only attribute is the `type` token,
which contains no `<`. -/
theorem good_writeTextTag (name : String) (content : TextField)
    (h1 : noLt name.data = true) (h2 : name.data.head? ≠ some 'l') (h3 : name ≠ "") :
    Good (writeTextTag name content).data := by
  cases content with
  | missing => exact good_writeTag name (some "") (some []) h1 h2 h3 (by decide)
  | plain s =>
      exact good_writeTag name (some s) (some [("type", TextType.plain.token)]) h1 h2 h3
        (by decide)
  | structured v t =>
      exact good_writeTag name (some v) (some [("type", t.token)]) h1 h2 h3
        (by cases t <;> decide)

/-- One role-wrapped person record is `Good` for a well-formed role tag. -/
theorem good_writePersonOne (tag : String) (p : Person)
    (t1 : noLt tag.data = true) (t2 : tag.data.head? ≠ some 'l') (t3 : tag ≠ "") :
    Good (writePersonOne tag p).data := by
  have hassoc : writePersonOne tag p =
      ("<" ++ tag) ++ (">" ++
        (writeEntityTag "name" (FieldValue.str p.name) none ++
          (writeEntityTag "uri" (fieldOfOpt p.uri) none ++
            (writeEntityTag "email" (fieldOfOpt p.email) none ++
              (("</" ++ tag) ++ ">"))))) := by
    simp [writePersonOne, String.append_assoc]
  rw [hassoc]
  refine good_sappend (good_lt_append tag t1 t2 t3) ?_
  refine good_sappend (by decide) ?_
  refine good_sappend (good_writeEntityTag "name" _ (by decide) (by decide) (by decide)) ?_
  refine good_sappend (good_writeEntityTag "uri" _ (by decide) (by decide) (by decide)) ?_
  refine good_sappend (good_writeEntityTag "email" _ (by decide) (by decide) (by decide)) ?_
  exact good_sappend (good_ltslash_append tag t1 t3) (by decide)

/-- `writePerson` output is `Good` for a well-formed role tag. -/
theorem good_writePerson (tag : String) (pf : PersonsField)
    (t1 : noLt tag.data = true) (t2 : tag.data.head? ≠ some 'l') (t3 : tag ≠ "") :
    Good (writePerson tag pf).data := by
  cases pf with
  | nullv => exact ⟨rfl, rfl⟩
  | one r p => exact good_writePersonOne tag p t1 t2 t3
  | many r ps =>
      show Good (ps.foldl (fun list p => list ++ writePersonOne tag p) "").data
      rw [foldl_append_eq_joinAll, String.empty_append]
      apply good_joinAll
      intro s hs
      rw [List.mem_map] at hs
      obtain ⟨p, _, rfl⟩ := hs
      exact good_writePersonOne tag p t1 t2 t3

/-- `writeEntry` output is `Good`. -/
theorem good_writeEntry (e : Entry) (fa : PersonsField) :
    Good (writeEntry e fa).data := by
  have hassoc : writeEntry e fa =
      ("<entry>" : String) ++
        (writeEntityTag "id" e.id none ++
          (writeTextTag "title" e.title ++
            (writeEntityTag "updated" e.updated none ++
              (writeEntityTag "published" e.published none ++
                ((if jsEq fa e.author then "" else writePerson "author" e.author) ++
                  (writePerson "contributor" e.contributor ++
                    (writeTextTag "rights" e.rights ++
                      (writeTextTag "content" e.content ++
                        (writeTextTag "summary" e.summary ++ "</entry>"))))))))) := by
    simp [writeEntry, String.append_assoc]
  rw [hassoc]
  refine good_sappend (by decide) ?_
  refine good_sappend (good_writeEntityTag "id" _ (by decide) (by decide) (by decide)) ?_
  refine good_sappend (good_writeTextTag "title" _ (by decide) (by decide) (by decide)) ?_
  refine good_sappend (good_writeEntityTag "updated" _ (by decide) (by decide) (by decide)) ?_
  refine good_sappend (good_writeEntityTag "published" _ (by decide) (by decide) (by decide)) ?_
  refine good_sappend ?_ ?_
  · by_cases h : jsEq fa e.author
    · simp [h]
      exact ⟨rfl, rfl⟩
    · simp [h]
      exact good_writePerson "author" e.author (by decide) (by decide) (by decide)
  refine good_sappend (good_writePerson "contributor" _ (by decide) (by decide) (by decide)) ?_
  refine good_sappend (good_writeTextTag "rights" _ (by decide) (by decide) (by decide)) ?_
  refine good_sappend (good_writeTextTag "content" _ (by decide) (by decide) (by decide)) ?_
  exact good_sappend (good_writeTextTag "summary" _ (by decide) (by decide) (by decide)) (by decide)

/-- The whole serialized feed is `Good`: it contains no `<l` pair. -/
theorem good_write (f : Feed) : Good ((write f).2).data := by
  have hassoc : (write f).2 =
      ("<?xml version=\"1.0\" encoding=\"utf-8\"?><feed xmlns=\"http://www.w3.org/2005/Atom\">" : String) ++
          (writeEntityTag "id" f.id none ++
            (writeEntityTag "title" f.title none ++
              (writeEntityTag "subtitle" f.subtitle none ++
                (writeEntityTag "rights" f.rights none ++
                  (writePerson "author" f.author ++
                    ((writeGenerator f.generator).2 ++
                      (joinAll (f.entry.map (fun e => writeEntry e f.author)) ++
                        "</feed>"))))))) := by
    simp [write, String.append_assoc]
  rw [hassoc]
  refine good_sappend (by decide) ?_
  refine good_sappend (good_writeEntityTag "id" _ (by decide) (by decide) (by decide)) ?_
  refine good_sappend (good_writeEntityTag "title" _ (by decide) (by decide) (by decide)) ?_
  refine good_sappend (good_writeEntityTag "subtitle" _ (by decide) (by decide) (by decide)) ?_
  refine good_sappend (good_writeEntityTag "rights" _ (by decide) (by decide) (by decide)) ?_
  refine good_sappend (good_writePerson "author" _ (by decide) (by decide) (by decide)) ?_
  refine good_sappend ?_ ?_
  · cases f.generator <;> exact ⟨rfl, rfl⟩
  refine good_sappend ?_ (by decide)
  apply good_joinAll
  intro s hs
  rw [List.mem_map] at hs
  obtain ⟨e, _, rfl⟩ := hs
  exact good_writeEntry e f.author

/-- A list without the `<l` pair cannot contain the substring `<link`. -/
theorem hasSub_link_of_pair (l : List Char) (h : hasPairLtL l = false) :
    hasSub "<link".data l = false := by
  induction l with
  | nil => rfl
  | cons c rest ih =>
      have hrec : hasPairLtL rest = false := by
        cases rest with
        | nil => rfl
        | cons d r2 =>
            have hun : hasPairLtL (c :: d :: r2) =
                ((c == '<' && d == 'l') || hasPairLtL (d :: r2)) := rfl
            rw [hun, Bool.or_eq_false_iff] at h
            exact h.2
      have hpre : (("<link".data).isPrefixOf (c :: rest)) = false := by
        cases rest with
        | nil => simp [List.isPrefixOf]
        | cons d r2 =>
            by_cases hc : c = '<'
            · by_cases hd : d = 'l'
              · exfalso
                subst hc
                subst hd
                have hx : hasPairLtL ('<' :: 'l' :: r2) = false := h
                simp [hasPairLtL] at hx
              · show (('<' :: 'l' :: 'i' :: 'n' :: 'k' :: []).isPrefixOf (c :: d :: r2)) = false
                simp [List.isPrefixOf]
                intro
                intro h2
                exact absurd h2.symm hd
            · show (('<' :: 'l' :: 'i' :: 'n' :: 'k' :: []).isPrefixOf (c :: d :: r2)) = false
              simp [List.isPrefixOf]
              intro h1
              exact absurd h1.symm hc
      have hun2 : hasSub "<link".data (c :: rest) =
          ((("<link".data).isPrefixOf (c :: rest)) || hasSub "<link".data rest) := rfl
      rw [hun2, hpre, ih hrec]
      rfl

/-- C10: the serialized document of any feed contains no `<link` substring
— `write` and `writeEntry` never invoke `writeLink` — and changing an
entry's `link` field never changes the output of `writeEntry`. -/
theorem write_never_renders_links (f : Feed) :
    hasSub "<link".data ((write f).2).data = false ∧
    (∀ (i : FieldValue) (ti : TextField) (u pb : FieldValue) (au co : PersonsField)
        (ri ct su : TextField) (la la' : Option LinkArg) (fa : PersonsField),
      writeEntry ⟨i, ti, u, pb, au, co, ri, ct, su, la⟩ fa =
        writeEntry ⟨i, ti, u, pb, au, co, ri, ct, su, la'⟩ fa) := by
  refine ⟨hasSub_link_of_pair _ (good_write f).1, ?_⟩
  intro i ti u pb au co ri ct su la la' fa
  rfl

end Atom
